import Mathlib

/-!
Verification of the go-dns server core against its specification.

The Go source is shallowly embedded below. Byte arrays and byte strings are
represented positionally as natural numbers in base 256: byte `i` of a value
`v` is `v / 256 ^ i % 256`, so index 0 is the least-significant digit and a
string of `n` bytes is a value below `256 ^ n`. Go slices carry an explicit
capacity and logical length next to their backing value, machine-integer
arithmetic carries explicit `% 256` / `% 2^16` reductions, and every Go
operation that can panic (slice bound checks, the `GrowBuffer` invariant
check) is modelled as an explicit fault in an `Except`-style result.
-/

/-- A byte string: `val` packs the bytes positionally in base 256 (byte `i`
is `val / 256 ^ i % 256`) and `len` is the number of bytes. -/
structure Bytes where
  val : Nat
  len : Nat
deriving DecidableEq, Repr

/-- Byte `i` of a packed byte value. -/
def byteAt (v i : Nat) : Nat := v / 256 ^ i % 256

/-- The packed value of bytes `[i, i+n)` of `v`. -/
def byteSeg (v i n : Nat) : Nat := v / 256 ^ i % 256 ^ n

/-- Overwrite bytes `[i, i+n)` of `v` with the `n`-byte value `seg`, leaving
all other bytes in place (the effect of a Go `copy` into a subslice). -/
def setSeg (v i n seg : Nat) : Nat :=
  v % 256 ^ i + seg % 256 ^ n * 256 ^ i + v / 256 ^ (i + n) * 256 ^ (i + n)

/-- Concatenation of byte strings (the second string's bytes follow the
first's). -/
def Bytes.cat (a b : Bytes) : Bytes :=
  ⟨a.val % 256 ^ a.len + b.val % 256 ^ b.len * 256 ^ a.len, a.len + b.len⟩

/-- The byte string made of `n` copies of the byte `b`, via the closed form
of the geometric sum `b * (256^0 + ... + 256^(n-1))`. -/
def repBytes (b n : Nat) : Bytes := ⟨b % 256 * ((256 ^ n - 1) / 255), n⟩

/-- Model of `DecodeLength = binary.BigEndian.Uint16` (writer source, line 13):
`b[0]` is the high byte and `b[1]` the low byte. Go bytes are `uint8`; the
`% 256` makes the model total on `Nat`. -/
def decodeLength (b0 b1 : Nat) : Nat := b0 % 256 * 256 + b1 % 256

/-- Model of `EncodeLength = binary.BigEndian.PutUint16` (writer source,
line 12) applied to `uint16(n)`: the two bytes written are `byte(v >> 8)` and
`byte(v)` where `v = n mod 2^16`, as a list `[high, low]`. -/
def encodeLength (n : Nat) : List Nat := [n / 256 % 256, n % 256]

/-- The two-byte big-endian encoding `[high, low]` of a value `n < 65536`, as
the spec speaks of it ("the big-endian encoding of (total bytes − 2)"). -/
def beBytes (n : Nat) : List Nat := [n / 256, n % 256]

/-- A Go byte slice over a pooled backing array: `val` packs the backing
array's bytes (from the slice base up to its capacity), `cap` is the
capacity, `len` the slice length. -/
structure GoSlice where
  val : Nat
  cap : Nat
  len : Nat
deriving DecidableEq, Repr

/-- Runtime faults of the embedded Go code: a slice-bounds violation, or the
explicit `length is greater than capacity` check in `GrowBuffer`. -/
inductive Fault
  | sliceBounds
  | growCheck
deriving DecidableEq, Repr

/-- Model of `GrowBuffer(buf, capacity, length)` (buffers source, lines
267-280): fail loudly if `length > capacity`; when the requested capacity
exceeds the current one, append zero bytes
(`append(buf[:cap(buf)], make([]byte, n)...)`, modelled as growing to exactly
the requested capacity, which leaves every stored byte in place); finally
return the subslice `buf[:length]`, whose bound check is `length ≤ cap`. -/
def growBuffer (s : GoSlice) (capacity length : Nat) : Except Fault GoSlice :=
  if length > capacity then .error .growCheck
  else
    let c := if capacity > s.cap then capacity else s.cap
    if length ≤ c then .ok ⟨s.val, c, length⟩ else .error .sliceBounds

/-- C10: GrowBuffer fails exactly when the requested length exceeds the
requested capacity; otherwise it returns a slice of the requested length
whose capacity is at least the request, whose backing bytes all equal the
original's (in particular those within the old length), and whose backing
storage (capacity and contents) is completely unchanged when the request is
within the current capacity. -/
theorem growBuffer_contract (s : GoSlice) (capacity length : Nat) :
    (length ≤ capacity →
      ∃ r, growBuffer s capacity length = .ok r ∧
        r.len = length ∧
        capacity ≤ r.cap ∧
        r.val = s.val ∧
        (capacity ≤ s.cap → r.cap = s.cap))
    ∧ (capacity < length → growBuffer s capacity length = .error .growCheck) := by
  constructor
  · intro hlc
    unfold growBuffer
    rw [if_neg (by omega)]
    by_cases hcap : capacity > s.cap
    · rw [if_pos hcap]
      exact ⟨⟨s.val, capacity, length⟩, by rw [if_pos hlc], rfl, le_refl _, rfl, by omega⟩
    · rw [if_neg hcap]
      refine ⟨⟨s.val, s.cap, length⟩, by rw [if_pos (by omega)], rfl, ?_, rfl, fun _ => rfl⟩
      show capacity ≤ s.cap
      omega
  · intro hcl
    unfold growBuffer
    rw [if_pos (by omega)]

/-- Witness for C10 at a concrete slice: growing a 3-byte slice holding
bytes `[1,2,3]` to capacity 5 and length 4 succeeds, reaches capacity 5, and
preserves the backing bytes. -/
theorem growBuffer_contract_witness :
    ∃ r, growBuffer ⟨1 + 2 * 256 + 3 * 65536, 3, 3⟩ 5 4 = .ok r ∧
      r.len = 4 ∧
      5 ≤ r.cap ∧
      r.val = 1 + 2 * 256 + 3 * 65536 ∧
      (5 ≤ (3 : Nat) → r.cap = 3) := by
  exact (growBuffer_contract ⟨1 + 2 * 256 + 3 * 65536, 3, 3⟩ 5 4).1 (by decide)

/-- One entry per execution of the growth step (server source, line 180),
recording the read position, write position, decoded payload size, and the
buffer length and capacity right after `GrowBuffer(buf, size, size)`. -/
structure GrowEvent where
  rp : Nat
  wp : Nat
  size : Nat
  blenAfter : Nat
  capAfter : Nat
deriving DecidableEq, Repr

/-- State of the per-connection reassembly loop of `Server.HandleStream`
(server source, lines 153-218): the working buffer's backing bytes (`data`,
packed in base 256 up to the capacity `cap`), its slice length `blen`, the
write and read positions, the remaining input chunks of the connection, the
payloads dispatched so far, and instrumentation logs for the growth and
compaction steps. -/
structure StreamState where
  data : Nat
  cap : Nat
  blen : Nat
  wpos : Nat
  rpos : Nat
  chunks : List Bytes
  dispatched : List Bytes
  growLog : List GrowEvent
  compactLog : List (Nat × Nat)
deriving DecidableEq, Repr

/-- Model of a header parse `req.Start(buf)`. Modelled from the spec: the
message codec's "parse header from byte slice" fails unless the message holds
a complete 12-byte header, and the decoded header is determined by those
first 12 bytes. -/
def parseStart (buf : Bytes) : Except Unit Bytes :=
  if 12 ≤ buf.len then .ok ⟨buf.val % 256 ^ 12, 12⟩ else .error ()

/-- A handler behaviour: `none` means the handler returns normally, `some v`
means it panics with value `v`. -/
abbrev Handler := Bytes → Option Nat

/-- Outcome of one `Server.Handle` call (server source, lines 78-95): header
parse failure is logged and the call returns; a handler panic is recovered by
the deferred `recover()` and logged; otherwise the handler served the
request. -/
inductive HandleEvent
  | parseFailed
  | served (hd : Bytes)
  | recovered (v : Nat)
deriving DecidableEq, Repr

/-- The body of `Server.Handle` before the deferred recovery runs: parse the
header (an error is handled normally, lines 88-92), then run the handler,
whose panic escapes the body (line 94). -/
def handleBody (h : Handler) (buf : Bytes) : Except Nat HandleEvent :=
  match parseStart buf with
  | .error _ => .ok .parseFailed
  | .ok hd =>
    match h buf with
    | some v => .error v
    | none => .ok (.served hd)

/-- Model of `Server.Handle` (server source, lines 78-95): the deferred
`recover()` (lines 79-83) converts any panic escaping the body into a logged
event, so the call always returns normally. -/
def handleRun (h : Handler) (buf : Bytes) : HandleEvent :=
  match handleBody h buf with
  | .error v => .recovered v
  | .ok ev => ev

/-- The always-returning handler, used as the reference behaviour. -/
def handlerNone : Handler := fun _ => none

/-- Model of `conn.Read` on a byte stream delivered as a list of chunks: the
next chunk is copied into the available space (`n = min(len(chunk), space)`,
a partial copy leaves the chunk's remainder for the next read), and an empty
chunk list yields `(0, io.EOF)`. Returns the bytes read, the EOF flag, and
the remaining chunks. -/
def connRead (chunks : List Bytes) (avail : Nat) : Bytes × Bool × List Bytes :=
  match chunks with
  | [] => (⟨0, 0⟩, true, [])
  | c :: rest =>
    let n := min c.len avail
    (⟨c.val % 256 ^ n, n⟩, false,
      if n = c.len then rest else ⟨c.val / 256 ^ n, c.len - n⟩ :: rest)

/-- Result of one iteration of the frame-extraction loop body (server source,
lines 175-198): a runtime fault, a `break` out of the loop (incomplete frame,
line 185), or a dispatch carrying the payload passed to `Server.Handle`. -/
inductive StepCore
  | faulted (f : Fault) (st : StreamState)
  | stop (st : StreamState)
  | next (st : StreamState) (payload : Bytes)
deriving Repr

/-- One iteration of the extraction loop body of `Server.HandleStream`
(server source, lines 175-198), entered when `wpos-rpos >= 14`:
decode the frame header from `buf[rpos:]` (line 177, which panics if
`rpos > len(buf)`, and `Uint16` panics unless that subslice holds 2 bytes);
grow with `GrowBuffer(buf, size, size)` (line 180, which also truncates the
slice length to `size`); break if the frame is incomplete (lines 183-186);
otherwise step past the header and dispatch `buf[rpos:rpos+size]`, whose
bound check is `rpos+size ≤ cap` (lines 189-197). -/
def innerStep (st : StreamState) : StepCore :=
  if st.rpos ≤ st.blen then
    if 2 ≤ st.blen - st.rpos then
      let size := decodeLength (byteAt st.data st.rpos) (byteAt st.data (st.rpos + 1))
      match growBuffer ⟨st.data, st.cap, st.blen⟩ size size with
      | .error f => .faulted f st
      | .ok g =>
        let st := { st with
          data := g.val, cap := g.cap, blen := g.len,
          growLog := st.growLog ++ [⟨st.rpos, st.wpos, size, g.len, g.cap⟩] }
        if size > st.wpos - (st.rpos + 2) then .stop st
        else
          let rp := st.rpos + 2
          if rp + size ≤ st.cap then
            let payload : Bytes := ⟨byteSeg st.data rp size, size⟩
            .next { st with rpos := rp + size, dispatched := st.dispatched ++ [payload] }
              payload
          else .faulted .sliceBounds st
    else .faulted .sliceBounds st
  else .faulted .sliceBounds st

/-- Result of running the extraction loop to completion: a fault, a normal
exit (loop condition false or `break`), or fuel exhaustion. -/
inductive LoopRes
  | faulted (f : Fault) (st : StreamState)
  | normal (st : StreamState)
  | out (st : StreamState)
deriving Repr

/-- The extraction loop of `Server.HandleStream` (server source, lines
175-198): while at least 14 unread bytes are buffered, run one iteration;
each dispatched payload is handed synchronously to `Server.Handle`, whose
outcome is appended to the event log. -/
def extractAux (h : Handler) : Nat → StreamState → List HandleEvent → LoopRes × List HandleEvent
  | 0, st, evs => (.out st, evs)
  | fuel + 1, st, evs =>
    if 14 ≤ st.wpos - st.rpos then
      match innerStep st with
      | .faulted f st' => (.faulted f st', evs)
      | .stop st' => (.normal st', evs)
      | .next st' payload => extractAux h fuel st' (evs ++ [handleRun h payload])
    else (.normal st, evs)

/-- Model of the compaction step (server source, lines 210-216):
`wpos = copy(buf, buf[rpos:wpos])` — the source subslice requires
`rpos ≤ wpos ≤ cap`, and `copy` moves `min(len(buf), wpos-rpos)` bytes to the
front — then `rpos = 0` and `buf = buf[:cap(buf)]`. Records the number of
unprocessed bytes and how many of them the copy dropped. -/
def compactStep (st : StreamState) : Except Fault StreamState :=
  if st.rpos ≤ st.wpos ∧ st.wpos ≤ st.cap then
    let n := min st.blen (st.wpos - st.rpos)
    .ok { st with
      data := setSeg st.data 0 n (byteSeg st.data st.rpos n),
      blen := st.cap, wpos := n, rpos := 0,
      compactLog := st.compactLog ++ [(st.wpos - st.rpos, st.wpos - st.rpos - n)] }
  else .error .sliceBounds

/-- Final result of `Server.HandleStream`: normal return on end-of-stream, a
runtime fault, or fuel exhaustion. -/
inductive RunRes
  | finished (st : StreamState)
  | faulted (f : Fault) (st : StreamState)
  | out (st : StreamState)
deriving Repr

/-- The outer read loop of `Server.HandleStream` (server source, lines
169-217): read into `buf[wpos:]` (bound check `wpos ≤ len(buf)`) and advance
`wpos` (lines 170-171), run the extraction loop (lines 175-198), return on
end-of-stream (lines 200-203), otherwise compact and continue
(lines 213-216). -/
def runAux (h : Handler) : Nat → StreamState → List HandleEvent → RunRes × List HandleEvent
  | 0, st, evs => (.out st, evs)
  | fuel + 1, st, evs =>
    if st.wpos ≤ st.blen then
      match connRead st.chunks (st.blen - st.wpos) with
      | (bs, eof, rest) =>
        let st1 := { st with
          data := setSeg st.data st.wpos bs.len bs.val,
          wpos := st.wpos + bs.len, chunks := rest }
        match extractAux h (fuel + 1) st1 evs with
        | (.faulted f st', evs') => (.faulted f st', evs')
        | (.out st', evs') => (.out st', evs')
        | (.normal st', evs') =>
          if eof then (.finished st', evs')
          else
            match compactStep st' with
            | .error f => (.faulted f st', evs')
            | .ok st'' => runAux h fuel st'' evs'
    else (.faulted .sliceBounds st, evs)

/-- The initial reassembly state: `GetBuffer(4096, 4096)` (server source,
line 163; the pooled buffer is modelled zeroed) and both cursor positions at
zero (line 167). -/
def initState (chunks : List Bytes) : StreamState :=
  { data := 0, cap := 4096, blen := 4096, wpos := 0, rpos := 0,
    chunks := chunks, dispatched := [], growLog := [], compactLog := [] }

/-- Run `Server.HandleStream` over a stream delivered as `chunks`. -/
def handleStream (h : Handler) (fuel : Nat) (chunks : List Bytes) :
    RunRes × List HandleEvent :=
  runAux h fuel (initState chunks) []

/-- The state carried by a run result. -/
def RunRes.state : RunRes → StreamState
  | .finished st => st
  | .faulted _ st => st
  | .out st => st

/-- The kind of a run result, with the fault when there is one. -/
inductive RunKind
  | finished
  | faulted (f : Fault)
  | out
deriving DecidableEq, Repr

/-- Projection of a run result to its kind. -/
def RunRes.kind : RunRes → RunKind
  | .finished _ => .finished
  | .faulted f _ => .faulted f
  | .out _ => .out

/-- The payloads dispatched during a run, in dispatch order. -/
def RunRes.dispatchList (r : RunRes) : List Bytes := r.state.dispatched

/-- A minimal well-formed 12-byte protocol message: a complete header with
transaction id `id` (big-endian in bytes 0-1) and all section counts zero. -/
def queryBytes (id : Nat) : Bytes := ⟨id / 256 % 256 + id % 256 * 256, 12⟩

/-- The stream frame carrying `queryBytes id`: a 2-byte big-endian length
prefix (value 12, bytes `[0, 12]`) followed by the 12-byte message. -/
def frameBytes (id : Nat) : Bytes := Bytes.cat ⟨12 * 256, 2⟩ (queryBytes id)

set_option exponentiation.threshold 10000
set_option maxRecDepth 4000

/-- A frame whose length prefix decodes to 4095 (bytes `[15, 255]`) followed
by a 4095-byte payload of byte value 7: a well-formed frame of 4097 bytes. -/
def bigFrame : Bytes := Bytes.cat ⟨15 + 255 * 256, 2⟩ (repBytes 7 4095)

/-- A frame with length prefix 0: a well-formed zero-body message. -/
def zeroFrame : Bytes := ⟨0, 2⟩

/-- The first ten bytes of `queryBytes 5`. -/
def query5a : Bytes := ⟨(queryBytes 5).val % 256 ^ 10, 10⟩

/-- The last two bytes of `queryBytes 5`. -/
def query5b : Bytes := ⟨(queryBytes 5).val / 256 ^ 10, 2⟩

/-- A zero-length frame, the prefix of `frameBytes 5` and the first ten
payload bytes in one chunk, then the remaining two payload bytes. -/
def c3Chunks : List Bytes :=
  [Bytes.cat zeroFrame (Bytes.cat ⟨12 * 256, 2⟩ query5a), query5b]

/-- C1: refuted on the code. Two well-formed frames delivered in a single
read chunk do not produce two dispatches: after dispatching the first frame,
`GrowBuffer(buf, size, size)` has truncated the slice length to 12, so the
next header decode `DecodeLength(buf[rpos:])` runs with `rpos = 14 > len(buf)`
and the loop dies with a slice-bounds panic, having dispatched only the first
frame. (The same two frames delivered in separate reads are both dispatched,
as the final conjunct shows, so the fault is specific to multi-frame
chunks.) -/
theorem handleStream_two_frames_one_chunk_faults :
    (handleStream handlerNone 9 [Bytes.cat (frameBytes 1) (frameBytes 2)]).1.kind
      = .faulted .sliceBounds
    ∧ (handleStream handlerNone 9 [Bytes.cat (frameBytes 1) (frameBytes 2)]).1.dispatchList
      = [queryBytes 1]
    ∧ (handleStream handlerNone 20 [frameBytes 1, frameBytes 2]).1.dispatchList
      = [queryBytes 1, queryBytes 2] := by
  refine ⟨by decide, by decide, by decide⟩

/-- C2: refuted on the code. For a well-formed frame with payload size 4095,
fully delivered and followed by end-of-stream, the growth step
`GrowBuffer(buf, size, size)` requests capacity `size`, not
`rpos + 2 + size`: the recorded growth state has capacity 4096 at read
position 0 with decoded size 4095, and `4096 < 0 + 2 + 4095`, so the frame
can never fit behind its 2-byte prefix and is never dispatched even though
all of its bytes arrived. -/
theorem handleStream_growth_misses_prefix :
    (handleStream handlerNone 9 [bigFrame]).1.kind = .finished
    ∧ (handleStream handlerNone 9 [bigFrame]).1.dispatchList = []
    ∧ (handleStream handlerNone 9 [bigFrame]).1.state.growLog.head?
      = some ⟨0, 4096, 4095, 4095, 4096⟩
    ∧ ∃ e ∈ (handleStream handlerNone 9 [bigFrame]).1.state.growLog,
        e.capAfter < e.rp + 2 + e.size := by
  refine ⟨by decide, by decide, by decide, by decide⟩

/-- C3: refuted on the code. After a zero-length frame is extracted,
`GrowBuffer(buf, 0, 0)` has truncated the buffer length to 0 while
`wpos = 14`, violating `rpos ≤ wpos ≤ len(buf)` (the recorded growth state
has write position 14 and buffer length 0); the subsequent compaction
`copy(buf, buf[rpos:wpos])` then copies into a zero-length destination and
drops all 12 received-but-unprocessed bytes (the recorded compaction event
shows 12 pending bytes, 12 lost), so the following frame `frameBytes 5` is
never dispatched. -/
theorem handleStream_cursor_invariant_broken :
    (handleStream handlerNone 9 c3Chunks).1.kind = .finished
    ∧ (handleStream handlerNone 9 c3Chunks).1.dispatchList = [⟨0, 0⟩]
    ∧ (∃ e ∈ (handleStream handlerNone 9 c3Chunks).1.state.growLog,
        ¬ e.wp ≤ e.blenAfter)
    ∧ (∃ c ∈ (handleStream handlerNone 9 c3Chunks).1.state.compactLog, c.2 ≠ 0) := by
  refine ⟨by decide, by decide, by decide, by decide⟩

/-- C4: counterexample to the claim as stated. A stream consisting of exactly
one zero-length frame (two bytes `[0, 0]`, then end-of-stream) contains a
well-formed zero-body message, yet the loop never dispatches it: the
extraction loop only runs once at least 14 unread bytes are buffered, so the
run finishes with no dispatch. -/
theorem zero_frame_alone_not_dispatched :
    (handleStream handlerNone 5 [zeroFrame]).1.kind = .finished
    ∧ (handleStream handlerNone 5 [zeroFrame]).1.dispatchList = [] := by
  refine ⟨by decide, by decide⟩

/-- C4 (amended): a zero-length frame is dispatched, not treated as an
error, whenever the extraction loop reaches it with at least 14 unread
buffered bytes: one iteration of the loop body at a state whose decoded
length prefix is 0 (and whose cursor is in bounds) dispatches an empty
payload, hands it to `Server.Handle`, and the loop continues to the next
iteration. -/
theorem zero_frame_step_dispatches (st : StreamState) (h : Handler) (fuel : Nat)
    (evs : List HandleEvent)
    (h14 : 14 ≤ st.wpos - st.rpos)
    (hsize : decodeLength (byteAt st.data st.rpos) (byteAt st.data (st.rpos + 1)) = 0)
    (hrb : st.rpos + 2 ≤ st.blen)
    (hbc : st.blen ≤ st.cap) :
    ∃ st', innerStep st = .next st' ⟨0, 0⟩
      ∧ st'.dispatched = st.dispatched ++ [⟨0, 0⟩]
      ∧ st'.rpos = st.rpos + 2
      ∧ extractAux h (fuel + 1) st evs
        = extractAux h fuel st' (evs ++ [handleRun h ⟨0, 0⟩]) := by
  have h1 : st.rpos ≤ st.blen := by omega
  have h2 : 2 ≤ st.blen - st.rpos := by omega
  have h4 : st.rpos + 2 ≤ st.cap := by omega
  have hmain : ∃ st', innerStep st = .next st' ⟨0, 0⟩
      ∧ st'.dispatched = st.dispatched ++ [⟨0, 0⟩]
      ∧ st'.rpos = st.rpos + 2 := by
    simp only [innerStep, growBuffer, hsize, h1, h2, h4, gt_iff_lt, lt_self_iff_false,
      Nat.not_lt_zero, if_false, if_true, Nat.zero_le, Nat.add_zero, byteSeg, pow_zero,
      Nat.mod_one]
    exact ⟨_, rfl, rfl, rfl⟩
  obtain ⟨st', h5, h6, h7⟩ := hmain
  refine ⟨st', h5, h6, h7, ?_⟩
  simp only [extractAux]
  rw [if_pos h14, h5]

/-- Witness for the amended C4 at a concrete state: a buffer of capacity and
length 20 holding only zeros, with 14 unread bytes, dispatches the
zero-length frame at the front, hands it to the handler, and the loop
continues. -/
theorem zero_frame_step_dispatches_witness :
    ∃ st', innerStep ⟨0, 20, 20, 14, 0, [], [], [], []⟩ = .next st' ⟨0, 0⟩
      ∧ st'.dispatched = ([] : List Bytes) ++ [⟨0, 0⟩]
      ∧ st'.rpos = 0 + 2
      ∧ extractAux handlerNone 4 ⟨0, 20, 20, 14, 0, [], [], [], []⟩ []
        = extractAux handlerNone 3 st' ([] ++ [handleRun handlerNone ⟨0, 0⟩]) := by
  exact zero_frame_step_dispatches ⟨0, 20, 20, 14, 0, [], [], [], []⟩ handlerNone 3 []
    (by decide) (by decide) (by decide) (by decide)

/-- Modelled from the spec: the message codec's builder ("new builder(header,
buffer-with-reserved-prefix)") appends all encoded content after the
caller-supplied buffer's current length, and `Finish` returns the whole
backing slice: the initial bytes followed by the encoded message. Messages on
the writer side are lists of bytes. -/
def builderFinish (init content : List Nat) : List Nat := init ++ content

/-- Model of `StreamWriter.SendBuilder` (writer source, lines 78-89): after
`Finish`, `EncodeLength(msg, uint16(len(msg)-2))` overwrites the first two
bytes of the message with the big-endian length (`PutUint16` panics if the
message is shorter than 2 bytes), then `Send` writes the whole message to the
connection. -/
def streamSendBuilder (msg : List Nat) : Except Fault (List Nat) :=
  if 2 ≤ msg.length then .ok (encodeLength (msg.length - 2) ++ msg.drop 2)
  else .error .sliceBounds

/-- Model of `PacketWriter.SendBuilder` (writer source, lines 44-52): the
finalized message is written as one datagram, unchanged. -/
def packetSendBuilder (msg : List Nat) : List Nat := msg

/-- C5: a message finalized through a stream-writer's SendBuilder reaches the
wire with its first two bytes equal to the big-endian encoding of the total
byte count minus 2 and the codec's content starting unchanged at offset 2
(the builder was created over `GetBuffer(4096, 2)`, writer source line 72, so
the finalized message is two reserved pool bytes `g0, g1` followed by the
content); a message finalized through a packet-writer's SendBuilder (builder
over `GetBuffer(4096, 0)`, line 40) is exactly the codec output, with no
prefix. -/
theorem sendBuilder_framing (g0 g1 : Nat) (content : List Nat)
    (hlen : content.length < 65536) :
    (∃ wire, streamSendBuilder (builderFinish [g0, g1] content) = .ok wire ∧
      wire.take 2 = beBytes (wire.length - 2) ∧
      wire.drop 2 = content ∧
      wire.length = content.length + 2)
    ∧ packetSendBuilder (builderFinish [] content) = content := by
  constructor
  · have hdiv : content.length / 256 % 256 = content.length / 256 := by
      have : content.length / 256 < 256 := by omega
      exact Nat.mod_eq_of_lt this
    refine ⟨encodeLength content.length ++ content, ?_, ?_, ?_, ?_⟩
    · simp [streamSendBuilder, builderFinish]
    · simp [encodeLength, beBytes, hdiv]
    · simp [encodeLength]
    · simp [encodeLength]
  · simp [packetSendBuilder, builderFinish]

/-- Witness for C5 at a concrete message: content `queryBytes`-like 12 bytes
behind two residue bytes 9, 9. -/
theorem sendBuilder_framing_witness :
    (∃ wire, streamSendBuilder (builderFinish [9, 9] [0, 1, 0, 0, 0, 0, 0, 0, 0, 0, 0, 0])
        = .ok wire ∧
      wire.take 2 = beBytes (wire.length - 2) ∧
      wire.drop 2 = [0, 1, 0, 0, 0, 0, 0, 0, 0, 0, 0, 0] ∧
      wire.length = ([0, 1, 0, 0, 0, 0, 0, 0, 0, 0, 0, 0] : List Nat).length + 2)
    ∧ packetSendBuilder (builderFinish [] [0, 1, 0, 0, 0, 0, 0, 0, 0, 0, 0, 0])
      = [0, 1, 0, 0, 0, 0, 0, 0, 0, 0, 0, 0] := by
  exact sendBuilder_framing 9 9 [0, 1, 0, 0, 0, 0, 0, 0, 0, 0, 0, 0] (by decide)

/-- Auxiliary for C6: the run result of the extraction loop does not depend
on the handler's behaviour or on the accumulated event log, because
`Server.Handle` returns normally whatever the handler does and the loop never
reads its outcome. -/
theorem extractAux_result_indep (h h' : Handler) :
    ∀ fuel st evs evs', (extractAux h fuel st evs).1 = (extractAux h' fuel st evs').1 := by
  intro fuel
  induction fuel with
  | zero => intro st evs evs'; rfl
  | succ fuel ih =>
    intro st evs evs'
    simp only [extractAux]
    by_cases hc : 14 ≤ st.wpos - st.rpos
    · rw [if_pos hc, if_pos hc]
      cases hstep : innerStep st with
      | faulted f st' => rfl
      | stop st' => rfl
      | next st' payload => exact ih st' _ _
    · rw [if_neg hc, if_neg hc]

/-- Auxiliary for C6: the run result of the whole reassembly loop does not
depend on the handler's behaviour or on the accumulated event log. -/
theorem runAux_result_indep (h h' : Handler) :
    ∀ fuel st evs evs', (runAux h fuel st evs).1 = (runAux h' fuel st evs').1 := by
  intro fuel
  induction fuel with
  | zero => intro st evs evs'; rfl
  | succ fuel ih =>
    intro st evs evs'
    simp only [runAux]
    by_cases hc : st.wpos ≤ st.blen
    · rw [if_pos hc, if_pos hc]
      rcases hcr : connRead st.chunks (st.blen - st.wpos) with ⟨bs, eof, rest⟩
      have he := extractAux_result_indep h h' (fuel + 1)
        { st with
          data := setSeg st.data st.wpos bs.len bs.val,
          wpos := st.wpos + bs.len, chunks := rest } evs evs'
      rcases h1 : extractAux h (fuel + 1)
        { st with
          data := setSeg st.data st.wpos bs.len bs.val,
          wpos := st.wpos + bs.len, chunks := rest } evs with ⟨r1, ev1⟩
      rcases h2 : extractAux h' (fuel + 1)
        { st with
          data := setSeg st.data st.wpos bs.len bs.val,
          wpos := st.wpos + bs.len, chunks := rest } evs' with ⟨r2, ev2⟩
      rw [h1, h2] at he
      simp only at he
      subst he
      cases r1 with
      | faulted f st' => rfl
      | out st' => rfl
      | normal st' =>
        cases eof with
        | true => rfl
        | false =>
          simp only [Bool.false_eq_true, if_false]
          cases hcs : compactStep st' with
          | error f => rfl
          | ok st'' => exact ih st'' _ _
    · rw [if_neg hc, if_neg hc]

/-- C6: `Server.Handle` never propagates a panic — a panic escaping the
handler is converted by the deferred `recover()` into a logged event — and
consequently the reassembly loop's outcome (its dispatches, faults, and
termination) with any handler equals its outcome with the never-panicking
handler: a handler panic on one message does not prevent any other message
from being dispatched and does not terminate the loop. -/
theorem handler_panic_isolated (chunks : List Bytes) (fuel : Nat) (h : Handler) :
    (handleStream h fuel chunks).1 = (handleStream handlerNone fuel chunks).1
    ∧ ∀ buf v, handleBody h buf = .error v → handleRun h buf = .recovered v := by
  refine ⟨runAux_result_indep h handlerNone fuel (initState chunks) [] [], ?_⟩
  intro buf v hv
  unfold handleRun
  rw [hv]

/-- Witness for C6 at a concrete run: a handler that panics on every message
yields the same run result as the never-panicking handler on a two-frame
stream, and its panic on the first frame is recovered into a logged event. -/
theorem handler_panic_isolated_witness :
    (handleStream (fun _ => some 7) 20 [frameBytes 1, frameBytes 2]).1
      = (handleStream handlerNone 20 [frameBytes 1, frameBytes 2]).1
    ∧ handleRun (fun _ => some 7) (queryBytes 1) = .recovered 7 := by
  refine ⟨(handler_panic_isolated [frameBytes 1, frameBytes 2] 20 (fun _ => some 7)).1,
    (handler_panic_isolated [frameBytes 1, frameBytes 2] 20 (fun _ => some 7)).2
      (queryBytes 1) 7 ?_⟩
  rfl

/-- The non-empty list of error messages `es`, or `nil` when there are none
(`multierr` returns `nil` for an empty aggregate). -/
def packErrs (es : List String) : Option (List String) :=
  if es = [] then none else some es

/-- Model of `err = multierr.Append(err, closer.Close())` (server source,
line 45): each closer's `Close` yields at most one error, and the aggregate
keeps every error seen so far, in order. -/
def multiAppend (acc : Option (List String)) (r : Option String) : Option (List String) :=
  match acc, r with
  | none, none => none
  | none, some e => some [e]
  | some es, none => some es
  | some es, some e => some (es ++ [e])

/-- Model of `closers.CloseAll` (server source, lines 40-49): fold
`multierr.Append` over every registered closer's `Close` result; no early
exit on failure. -/
def closeAll (rs : List (Option String)) : Option (List String) :=
  rs.foldl multiAppend none

/-- Model of the error flow of `Server.Shutdown` (server source, lines
221-242): it calls `CloseAll` and logs a non-nil aggregate (lines 223-225),
but the named return `err` is never assigned, so the returned error is always
nil. First component: the logged aggregate; second: the returned error. -/
def shutdownResult (rs : List (Option String)) :
    Option (List String) × Option (List String) :=
  (closeAll rs, none)

/-- The close errors among a list of close results, in order. -/
def errsOf (rs : List (Option String)) : List String := rs.filterMap id

/-- Auxiliary for C7: folding `multierr.Append` from any packed accumulator
collects every error in order. -/
theorem closeAll_foldl (rs : List (Option String)) :
    ∀ es, rs.foldl multiAppend (packErrs es) = packErrs (es ++ errsOf rs) := by
  induction rs with
  | nil => intro es; simp [errsOf]
  | cons r rest ih =>
    intro es
    have hstep : multiAppend (packErrs es) r = packErrs (es ++ r.toList) := by
      by_cases hes : es = [] <;> cases r <;>
        simp [multiAppend, packErrs, hes, List.append_eq_nil]
    have herr : errsOf (r :: rest) = r.toList ++ errsOf rest := by
      cases r <;> simp [errsOf, Option.toList]
    calc (r :: rest).foldl multiAppend (packErrs es)
        = rest.foldl multiAppend (multiAppend (packErrs es) r) := rfl
      _ = rest.foldl multiAppend (packErrs (es ++ r.toList)) := by rw [hstep]
      _ = packErrs (es ++ r.toList ++ errsOf rest) := ih _
      _ = packErrs (es ++ errsOf (r :: rest)) := by rw [herr, List.append_assoc]

/-- C7 (amended): `CloseAll` aggregates every close error, in order, without
aborting on the first failure (its result is nil exactly when no close
failed); `Shutdown` logs that aggregate but always returns a nil error, even
when closes failed. -/
theorem closeAll_aggregates_shutdown_returns_nil (rs : List (Option String)) :
    closeAll rs = packErrs (errsOf rs)
    ∧ (shutdownResult rs).1 = closeAll rs
    ∧ (shutdownResult rs).2 = none := by
  refine ⟨?_, rfl, rfl⟩
  have h := closeAll_foldl rs []
  simpa [closeAll, packErrs] using h

/-- C7: counterexample to the claim as stated. With a single registered
closer whose `Close` fails, the close error is aggregated and logged, yet
`Shutdown` returns nil — not a non-nil aggregate — because its named return
is never assigned. -/
theorem shutdown_swallows_close_error :
    closeAll [some "close failed"] = some ["close failed"]
    ∧ (shutdownResult [some "close failed"]).2 = none := by
  exact ⟨rfl, rfl⟩

/-- Observable setup actions of the serving loops: incrementing the
wait-group, registering a closer, running a context hook, spawning a stream
handler, and entering the blocking read/accept loop. -/
inductive ServerOp
  | waitAdd
  | closerAdd (id : Nat)
  | hookBase
  | hookConn
  | spawnHandle (id : Nat)
  | blockingLoop (id : Nat)
deriving DecidableEq, Repr

/-- The setup sequence of `Server.Serve` for a packet connection (server
source, lines 98-112): `server.Add(1)` and `server.AddCloser(conn)` (lines
99-100), the base-context hook (lines 105-108), then the blocking `ReadFrom`
loop. -/
def serveOps (conn : Nat) : List ServerOp :=
  [.waitAdd, .closerAdd conn, .hookBase, .blockingLoop conn]

/-- The setup and accept sequence of `Server.ServeStream` (server source,
lines 129-149): `Add(1)` and `AddCloser(listener)` (lines 130-131), the
base-context hook, then the blocking accept loop in which each accepted
connection only spawns `HandleStream` (line 147). -/
def serveStreamOps (listener : Nat) (accepted : List Nat) : List ServerOp :=
  [.waitAdd, .closerAdd listener, .hookBase]
    ++ accepted.map ServerOp.spawnHandle ++ [.blockingLoop listener]

/-- The setup sequence of `Server.HandleStream` for an accepted connection
(server source, lines 153-170): the connection-context hook (lines 156-158)
and buffer acquisition, then the blocking `Read` loop; no `AddCloser` call
appears. -/
def handleStreamOps (conn : Nat) : List ServerOp := [.hookConn, .blockingLoop conn]

/-- The closers registered by a sequence of setup actions. -/
def closersOf (ops : List ServerOp) : List Nat :=
  ops.filterMap fun op => match op with | .closerAdd i => some i | _ => none

/-- C8: refuted on the code. `Serve` registers its packet connection and
`ServeStream` registers its listener before blocking, but a stream connection
accepted from the listener (here listener 2 accepting connections 3 and 4) is
never added to the server's closer set — neither by the accept loop nor by
`HandleStream` — so `Shutdown`'s close-all cannot force its blocked `Read` to
fail. -/
theorem accepted_conn_never_registered :
    closersOf (serveOps 1) = [1]
    ∧ closersOf (serveStreamOps 2 [3, 4]) = [2]
    ∧ closersOf (handleStreamOps 3) = []
    ∧ 3 ∉ closersOf (serveStreamOps 2 [3, 4] ++ handleStreamOps 3 ++ handleStreamOps 4) := by
  refine ⟨rfl, rfl, rfl, by decide⟩

/-- Addresses of a connection, by numeric identifier. -/
structure ConnAddrs where
  localA : Nat
  remoteA : Nat
deriving DecidableEq, Repr

/-- Addresses carried by a constructed Request. -/
structure ReqAddrs where
  localA : Nat
  remoteA : Nat
deriving DecidableEq, Repr

/-- The Request addressing constructed by the stream loop (server source,
line 194): `LocalAddr: conn.RemoteAddr(), RemoteAddr: conn.RemoteAddr()`. -/
def streamRequestAddrs (c : ConnAddrs) : ReqAddrs := ⟨c.remoteA, c.remoteA⟩

/-- The Request addressing constructed by the datagram loop (server source,
line 123): `LocalAddr: conn.LocalAddr(), RemoteAddr: from`. -/
def packetRequestAddrs (c : ConnAddrs) (fromA : Nat) : ReqAddrs := ⟨c.localA, fromA⟩

/-- C9: refuted on the code for the stream path. For a stream connection with
local address 1 and peer address 2 (for example, local 10.0.1.1:53 and peer
1.2.3.4:4242 in the repository's tests), the constructed Request's LocalAddr
is the peer's address 2, not the connection's local address 1; the datagram
path fills both addresses correctly. -/
theorem stream_request_local_addr_is_remote :
    (streamRequestAddrs ⟨1, 2⟩).localA = 2
    ∧ ¬ (streamRequestAddrs ⟨1, 2⟩).localA = (ConnAddrs.mk 1 2).localA
    ∧ packetRequestAddrs ⟨1, 2⟩ 2 = ⟨1, 2⟩ := by
  exact ⟨rfl, by decide, rfl⟩
